import Mathlib

/-!
Verification development for the seriem-agent backend.

The definitions below are shallow embeddings of the Python source under
`backend/app`: proposal data model and store (`proposals/models.py`,
`proposals/store.py`), the workspace sandbox (`workspace/manager.py`),
the filesystem tools (`tools/filesystem.py`), the approval route
(`proposals/routes.py`) and the websocket streaming arbiter
(`api/websocket.py`).  Nondeterministic ingredients of the source
(generated uuid identifiers, wall-clock time, the operating system's
path resolution, subprocess results, disk I/O success) are passed in as
explicit parameters, so every definition is a pure executable function.
-/

set_option linter.unusedVariables false
set_option maxRecDepth 4096

/-! ## Proposal data model (backend/app/proposals/models.py) -/

/-- Embeds `OperationType` (models.py): type of file operation. -/
inductive OperationType
  | create
  | update
  | delete
deriving DecidableEq, Repr

/-- Embeds `OperationType.value`: the string value of the enum member. -/
def OperationType.value : OperationType → String
  | .create => "create"
  | .update => "update"
  | .delete => "delete"

/-- Embeds Python `str.capitalize`: first character upper-cased, the rest
lower-cased. -/
def pyCapitalize (s : String) : String :=
  match s.data with
  | [] => ""
  | c :: rest => String.mk (c.toUpper :: rest.map Char.toLower)

/-- Helper for `pySplitlines`, accumulating the current line in reverse.
Line boundaries are the newline, carriage return and CRLF sequences that
Python `str.splitlines` recognises in the content this program handles. -/
def splitlinesAux : List Char → List Char → List (List Char)
  | [], acc => if acc.isEmpty then [] else [acc.reverse]
  | '\r' :: '\n' :: rest, acc => acc.reverse :: splitlinesAux rest []
  | '\r' :: rest, acc => acc.reverse :: splitlinesAux rest []
  | '\n' :: rest, acc => acc.reverse :: splitlinesAux rest []
  | c :: rest, acc => splitlinesAux rest (c :: acc)

/-- Embeds Python `str.splitlines`. -/
def pySplitlines (s : String) : List String :=
  (splitlinesAux s.data []).map String.mk

/-- Embeds `FileChange` (models.py): a single file change within a
proposal. -/
structure FileChange where
  path : String
  operation : OperationType
  before : Option String
  after : Option String
deriving DecidableEq, Repr

/-- Embeds `FileChange.lines_added` (models.py): count of lines added. -/
def FileChange.lines_added (fc : FileChange) : Nat :=
  match fc.after with
  | none => 0
  | some a =>
    match fc.before with
    | none => (pySplitlines a).length
    | some b =>
      let before_lines := pySplitlines b
      ((pySplitlines a).filter (fun line => ¬ before_lines.contains line)).length

/-- Embeds `FileChange.lines_removed` (models.py): count of lines
removed. -/
def FileChange.lines_removed (fc : FileChange) : Nat :=
  match fc.before with
  | none => 0
  | some b =>
    match fc.after with
    | none => (pySplitlines b).length
    | some a =>
      let after_lines := pySplitlines a
      ((pySplitlines b).filter (fun line => ¬ after_lines.contains line)).length

/-- Embeds `ChangeProposal` (models.py).  The generated
`str(uuid.uuid4())[:8]` identifier and the `datetime.utcnow()` creation
timestamp are supplied by the caller; timestamps are seconds as `Int`. -/
structure ChangeProposal where
  proposal_id : String
  files : List FileChange
  summary : String
  created_at : Int
deriving DecidableEq, Repr

/-- Embeds `ChangeProposal.file_count`. -/
def ChangeProposal.file_count (p : ChangeProposal) : Nat := p.files.length

/-- Embeds `ChangeProposal.total_lines_added`. -/
def ChangeProposal.total_lines_added (p : ChangeProposal) : Nat :=
  (p.files.map FileChange.lines_added).sum

/-- Embeds `ChangeProposal.total_lines_removed`. -/
def ChangeProposal.total_lines_removed (p : ChangeProposal) : Nat :=
  (p.files.map FileChange.lines_removed).sum

/-- Embeds `ProposalSummary` (models.py): summary view for listing. -/
structure ProposalSummary where
  proposal_id : String
  summary : String
  file_count : Nat
  lines_added : Nat
  lines_removed : Nat
  created_at : Int
deriving DecidableEq, Repr

/-- Embeds `ProposalSummary.from_proposal`. -/
def ProposalSummary.from_proposal (p : ChangeProposal) : ProposalSummary :=
  { proposal_id := p.proposal_id
    summary := p.summary
    file_count := p.file_count
    lines_added := p.total_lines_added
    lines_removed := p.total_lines_removed
    created_at := p.created_at }

/-! ## Proposal store (backend/app/proposals/store.py)

The store's `Dict[str, ChangeProposal]` is embedded as an association
list in insertion order, with Python-dict assignment semantics
(overwriting a present key keeps its position, a fresh key is appended).
The lock serialises operations, so each operation is one state
transition. -/

/-- Store state: proposals keyed by identifier, in insertion order. -/
abbrev Store := List (String × ChangeProposal)

/-- Python dict assignment `m[k] = v`: replace in place when the key is
present, append otherwise. -/
def dictInsert (m : Store) (k : String) (v : ChangeProposal) : Store :=
  if (m.lookup k).isSome then
    m.map (fun kv => if kv.1 = k then (k, v) else kv)
  else m ++ [(k, v)]

/-- Inputs of one `ProposalStore.create_proposal` call.  `gen_id` is the
identifier produced by `str(uuid.uuid4())[:8]` and `now` the value of
`datetime.utcnow()` at the call. -/
structure CreateReq where
  gen_id : String
  now : Int
  path : String
  operation : OperationType
  before : Option String
  after : Option String
  summary : String
deriving Repr

/-- Embeds `ProposalStore._generate_summary`. -/
def generate_summary (fc : FileChange) : String :=
  pyCapitalize fc.operation.value ++ " " ++ fc.path

/-- Embeds `ProposalStore.create_proposal` (store.py): build the single
`FileChange`, default the summary, build the proposal and insert it under
its generated identifier.  No collision check is performed. -/
def create_proposal (req : CreateReq) (s : Store) : ChangeProposal × Store :=
  let file_change : FileChange :=
    { path := req.path, operation := req.operation
      before := req.before, after := req.after }
  let summary :=
    if req.summary = "" then generate_summary file_change else req.summary
  let proposal : ChangeProposal :=
    { proposal_id := req.gen_id, files := [file_change]
      summary := summary, created_at := req.now }
  (proposal, dictInsert s proposal.proposal_id proposal)

/-- Embeds `ProposalStore.get`. -/
def Store.get (s : Store) (proposal_id : String) : Option ChangeProposal :=
  s.lookup proposal_id

/-- Embeds `ProposalStore.remove`: pop the entry, returning it when
present. -/
def Store.remove (s : Store) (proposal_id : String) :
    Option ChangeProposal × Store :=
  (s.lookup proposal_id, s.filter (fun kv => kv.1 ≠ proposal_id))

/-- Embeds `ProposalStore.clear`. -/
def Store.clear (s : Store) : Nat × Store := (s.length, [])

/-- Expiry TTL in seconds; embeds `self._expiry_hours = 1`. -/
def expiry_seconds : Int := 3600

/-- Embeds `ProposalStore._cleanup_expired`: delete every proposal with
`created_at < now - 1 hour`, keeping the rest in order. -/
def cleanup_expired (now : Int) (s : Store) : Store :=
  let cutoff := now - expiry_seconds
  s.filter (fun kv => ¬ (kv.2.created_at < cutoff))

/-- Stable descending insertion by `created_at`: a new element passes
every element with a key at least as large, matching the stability of
Python `sorted(..., reverse=True)`. -/
def insertByCreatedDesc (p : ChangeProposal) :
    List ChangeProposal → List ChangeProposal
  | [] => [p]
  | q :: rest =>
    if q.created_at < p.created_at then p :: q :: rest
    else q :: insertByCreatedDesc p rest

/-- Stable sort by creation time, newest first; embeds
`sorted(values, key=..., reverse=True)`. -/
def sortByCreatedDesc (l : List ChangeProposal) : List ChangeProposal :=
  l.foldl (fun acc p => insertByCreatedDesc p acc) []

/-- Embeds `ProposalStore.list_pending`: expiry sweep, then summaries of
the remaining proposals sorted by creation time, newest first.  Returns
the summaries together with the swept store state. -/
def list_pending (now : Int) (s : Store) : List ProposalSummary × Store :=
  let s1 := cleanup_expired now s
  ((sortByCreatedDesc (s1.map Prod.snd)).map ProposalSummary.from_proposal, s1)

/-! ## Workspace manager (backend/app/workspace/manager.py)

Absolute filesystem paths are embedded as their component lists (the
parts after the root anchor).  The operating system's `Path.resolve()` —
which normalizes `..` segments and follows symbolic links — is passed in
as an arbitrary function, so theorems quantifying over it cover every
possible symlink layout. -/

/-- Splitting a character list at every separator occurrence, keeping
empty pieces, as Python/pathlib split paths on `/`. -/
def splitSepAux (sep : Char) : List Char → List Char → List (List Char)
  | [], acc => [acc.reverse]
  | c :: rest, acc =>
    if c = sep then acc.reverse :: splitSepAux sep rest []
    else splitSepAux sep rest (c :: acc)

/-- Components of the relative-path string as pathlib parses them: split
on the separator, dropping empty and single-dot components. -/
def parseRel (s : String) : List String :=
  ((splitSepAux '/' s.data []).map String.mk).filter
    (fun c => c ≠ "" ∧ c ≠ ".")

/-- Path components are normalized when none is empty, `.` or `..` —
the shape `Path.resolve()` guarantees for its output. -/
def normalizedPath (l : List String) : Bool :=
  l.all (fun c => c ≠ "" && c ≠ "." && c != "..")

/-- Embeds `WorkspaceManager.safe_path` (manager.py): empty or `/`
resolves to the root, leading separators are stripped, the candidate is
joined to the root, resolved by the OS (`resolveFn`), and the result is
accepted only when `resolved.relative_to(root)` succeeds, i.e. when the
root's components are a prefix of the resolved components. -/
def safe_path (resolveFn : List String → List String) (root : List String)
    (relative_path : String) : Except String (List String) :=
  if relative_path = "" ∨ relative_path = "/" then .ok root
  else
    let clean_path :=
      String.mk (relative_path.data.dropWhile (fun c => c = '/' ∨ c = '\\'))
    let resolved := resolveFn (root ++ parseRel clean_path)
    if root.isPrefixOf resolved then .ok resolved
    else .error ("Path escapes workspace root: " ++ relative_path)

/-- Kind of filesystem object found at a path. -/
inductive PathKind
  | missing
  | file
  | dir
deriving DecidableEq, Repr

/-- Oracles for `_detect_git`: what the filesystem holds at a path, and
the (possibly failing) results of the bounded `git remote get-url` /
`git branch --show-current` subprocess probes. -/
structure GitProbe where
  kind : List String → PathKind
  remote : List String → Option String
  branch : List String → Option String

/-- Embeds the mutable state of `WorkspaceManager`. -/
structure WsState where
  workspace_root : List String
  git_enabled : Bool
  git_remote : Option String
  git_branch : Option String
deriving DecidableEq, Repr

/-- Embeds the `Workspace` pydantic model. -/
structure Workspace where
  root_path : List String
  git_enabled : Bool
  git_remote : Option String
  git_branch : Option String
deriving DecidableEq, Repr

/-- Embeds `WorkspaceManager._detect_git`: git is enabled when
`root/.git` exists and is a directory; remote and branch come from the
subprocess probes when enabled, and are reset to `None` otherwise. -/
def detect_git (probe : GitProbe) (st : WsState) : WsState :=
  if probe.kind (st.workspace_root ++ [".git"]) = .dir then
    { st with git_enabled := true
              git_remote := probe.remote st.workspace_root
              git_branch := probe.branch st.workspace_root }
  else
    { st with git_enabled := false, git_remote := none, git_branch := none }

/-- Embeds `WorkspaceManager.get_current`. -/
def get_current (st : WsState) : Workspace :=
  { root_path := st.workspace_root
    git_enabled := st.git_enabled
    git_remote := st.git_remote
    git_branch := st.git_branch }

/-- Embeds `WorkspaceManager.select_workspace` (manager.py): resolve the
requested path, fail with `ValueError` when it does not exist or is not
a directory, otherwise replace the workspace root (after the redundant
second `resolve()`) and recompute the git metadata.  The state is
returned unchanged on every failure path. -/
def select_workspace (resolveFn : String → List String)
    (resolveAgain : List String → List String) (probe : GitProbe)
    (path : String) (st : WsState) : Except String Workspace × WsState :=
  let resolved := resolveFn path
  if probe.kind resolved = .missing then
    (.error ("Path does not exist: " ++ path), st)
  else if probe.kind resolved ≠ .dir then
    (.error ("Path is not a directory: " ++ path), st)
  else
    let st1 := { st with workspace_root := resolveAgain resolved }
    let st2 := detect_git probe st1
    (.ok (get_current st2), st2)

/-! ## Python string helpers used by the tools and the arbiter -/

/-- Embeds the repeated scan of Python `str.count` for a non-empty
pattern: non-overlapping occurrences, left to right. -/
def countOccurPos (pat : List Char) : List Char → Nat
  | [] => 0
  | c :: rest =>
    if h : (!pat.isEmpty && pat.isPrefixOf (c :: rest)) = true then
      1 + countOccurPos pat ((c :: rest).drop pat.length)
    else countOccurPos pat rest
termination_by s => s.length
decreasing_by
  · simp only [Bool.and_eq_true, Bool.not_eq_true', List.isEmpty_eq_false] at h
    have hlen : 1 ≤ pat.length := List.length_pos.mpr h.1
    simp only [List.length_drop, List.length_cons]
    omega
  · simp only [List.length_cons]
    omega

/-- Embeds Python `str.count`, including the empty-pattern convention
`s.count('') == len(s) + 1`. -/
def pyCount (s pat : String) : Nat :=
  if pat.data.isEmpty then s.data.length + 1
  else countOccurPos pat.data s.data

/-- Embeds the scan of Python `str.replace` for a non-empty pattern. -/
def replacePos (pat new : List Char) : List Char → List Char
  | [] => []
  | c :: rest =>
    if h : (!pat.isEmpty && pat.isPrefixOf (c :: rest)) = true then
      new ++ replacePos pat new ((c :: rest).drop pat.length)
    else c :: replacePos pat new rest
termination_by s => s.length
decreasing_by
  · simp only [Bool.and_eq_true, Bool.not_eq_true', List.isEmpty_eq_false] at h
    have hlen : 1 ≤ pat.length := List.length_pos.mpr h.1
    simp only [List.length_drop, List.length_cons]
    omega
  · simp only [List.length_cons]
    omega

/-- Embeds Python `str.replace` (all occurrences), including the
empty-pattern convention that interleaves the replacement around every
character. -/
def pyReplace (s pat new : String) : String :=
  if pat.data.isEmpty then
    String.mk (s.data.foldr (fun c acc => new.data ++ c :: acc) new.data)
  else String.mk (replacePos pat.data new.data s.data)

/-- Embeds Python `str.lstrip()` with no argument: drop leading
whitespace. -/
def pyLstrip (s : String) : String :=
  String.mk (s.data.dropWhile Char.isWhitespace)

/-- Embeds Python `str.rstrip()` with no argument: drop trailing
whitespace. -/
def pyRstrip (s : String) : String :=
  String.mk ((s.data.reverse.dropWhile Char.isWhitespace).reverse)

/-! ## Filesystem tools (backend/app/tools/filesystem.py)

The disk is embedded as an association list from resolved absolute
paths (component lists) to entries; a file entry carries `some text`
when it is valid UTF-8 text and `none` when reading it raises
`UnicodeDecodeError`.  Each tool takes the OS resolution function and
the workspace root used by `_safe_path`, and returns its reply string
together with the resulting store and disk states. -/

/-- One filesystem object: a text or binary file, or a directory. -/
inductive FsEntry
  | fileEntry (text : Option String)
  | dirEntry
deriving DecidableEq, Repr

/-- Disk state: entries keyed by resolved absolute path. -/
abbrev Fs := List (List String × FsEntry)

/-- Embeds `write_file` (filesystem.py): determine Create vs Update from
the existing entry, read the prior content, create a proposal, and
answer with the proposal identifier.  The disk is never written. -/
def write_file (resolveFn : List String → List String) (root : List String)
    (gen_id : String) (now : Int) (fs : Fs) (store : Store)
    (path content : String) : String × Store × Fs :=
  match safe_path resolveFn root path with
  | .error e => ("Error: " ++ e, store, fs)
  | .ok target =>
    match fs.lookup target with
    | some (.fileEntry none) =>
      ("Error: Cannot modify \x27" ++ path ++ "\x27 - it is not a text file",
       store, fs)
    | some (.fileEntry (some text)) =>
      let req : CreateReq :=
        { gen_id := gen_id, now := now, path := path, operation := .update
          before := some text, after := some content, summary := "" }
      let (proposal, store1) := create_proposal req store
      ("Proposed update to \x27" ++ path ++ "\x27 (proposal_id: " ++
        proposal.proposal_id ++ "). Awaiting user approval.", store1, fs)
    | _ =>
      let req : CreateReq :=
        { gen_id := gen_id, now := now, path := path, operation := .create
          before := none, after := some content, summary := "" }
      let (proposal, store1) := create_proposal req store
      ("Proposed create to \x27" ++ path ++ "\x27 (proposal_id: " ++
        proposal.proposal_id ++ "). Awaiting user approval.", store1, fs)

/-- Embeds `edit_file` (filesystem.py): require an existing text file,
require the target text to occur exactly once, compute the replacement,
and create an Update proposal.  The disk is never written. -/
def edit_file (resolveFn : List String → List String) (root : List String)
    (gen_id : String) (now : Int) (fs : Fs) (store : Store)
    (path old_str new_str : String) : String × Store × Fs :=
  match safe_path resolveFn root path with
  | .error e => ("Error: " ++ e, store, fs)
  | .ok target =>
    match fs.lookup target with
    | none => ("Error: File \x27" ++ path ++ "\x27 does not exist", store, fs)
    | some .dirEntry => ("Error: \x27" ++ path ++ "\x27 is not a file", store, fs)
    | some (.fileEntry none) =>
      ("Error: File \x27" ++ path ++ "\x27 is not a text file", store, fs)
    | some (.fileEntry (some content)) =>
      if pyCount content old_str = 0 then
        ("Error: Could not find the specified text in \x27" ++ path ++ "\x27",
         store, fs)
      else if pyCount content old_str > 1 then
        ("Error: Found " ++ toString (pyCount content old_str) ++
          " occurrences of the text. Please provide more context to make it unique.",
         store, fs)
      else
        let new_content := pyReplace content old_str new_str
        let req : CreateReq :=
          { gen_id := gen_id, now := now, path := path, operation := .update
            before := some content, after := some new_content
            summary := "Edit " ++ path ++ ": replace text" }
        let (proposal, store1) := create_proposal req store
        ("Proposed edit to \x27" ++ path ++ "\x27 (proposal_id: " ++
          proposal.proposal_id ++ "). Awaiting user approval.", store1, fs)

/-- Embeds `delete_file` (filesystem.py): require an existing file, keep
its content (or a binary placeholder) as the proposal's before-text, and
create a Delete proposal.  The disk is never written. -/
def delete_file (resolveFn : List String → List String) (root : List String)
    (gen_id : String) (now : Int) (fs : Fs) (store : Store)
    (path : String) : String × Store × Fs :=
  match safe_path resolveFn root path with
  | .error e => ("Error: " ++ e, store, fs)
  | .ok target =>
    match fs.lookup target with
    | none => ("Error: File \x27" ++ path ++ "\x27 does not exist", store, fs)
    | some .dirEntry =>
      ("Error: \x27" ++ path ++
        "\x27 is not a file. Use delete_directory for directories.", store, fs)
    | some (.fileEntry c) =>
      let content := match c with | some t => t | none => "(binary file)"
      let req : CreateReq :=
        { gen_id := gen_id, now := now, path := path, operation := .delete
          before := some content, after := none, summary := "" }
      let (proposal, store1) := create_proposal req store
      ("Proposed deletion of \x27" ++ path ++ "\x27 (proposal_id: " ++
        proposal.proposal_id ++ "). Awaiting user approval.", store1, fs)

/-- Embeds `delete_directory` (filesystem.py): deletes the directory
directly on disk — `shutil.rmtree` when recursive, `rmdir` when empty —
with no proposal involved. -/
def delete_directory (resolveFn : List String → List String)
    (root : List String) (fs : Fs) (path : String) (recursive : Bool) :
    String × Fs :=
  match safe_path resolveFn root path with
  | .error e => ("Error: " ++ e, fs)
  | .ok target =>
    match fs.lookup target with
    | none => ("Error: Directory \x27" ++ path ++ "\x27 does not exist", fs)
    | some (.fileEntry c) =>
      ("Error: \x27" ++ path ++
        "\x27 is not a directory. Use delete_file for files.", fs)
    | some .dirEntry =>
      if target = root then
        ("Error: Cannot delete the workspace root directory", fs)
      else if recursive then
        ("Successfully deleted directory \x27" ++ path ++
          "\x27 and all its contents",
         fs.filter (fun kv => ¬ target.isPrefixOf kv.1))
      else if fs.any (fun kv =>
          (kv.1.length == target.length + 1) && target.isPrefixOf kv.1) then
        ("Error: Directory \x27" ++ path ++
          "\x27 is not empty. Set recursive=True to delete with contents.", fs)
      else
        ("Successfully deleted empty directory \x27" ++ path ++ "\x27",
         fs.filter (fun kv => kv.1 ≠ target))

/-! ## Proposal approval (backend/app/proposals/routes.py)

`approve_proposal` applies a pending proposal's changes file-by-file.
Disk write success is an oracle (`writeOk`); a `False` answer embeds an
I/O error raised by `write_text`.  An exception anywhere in the loop
aborts it: the error carries only the message, the writes already done
stay on disk, and the store is untouched (`store.remove` runs only after
the whole loop succeeds). -/

/-- Embeds the `ProposalResult` model (models.py). -/
structure ProposalResult where
  proposal_id : String
  action : String
  files_affected : List String
  message : String
deriving DecidableEq, Repr

/-- Disk write (`write_text` after `mkdir(parents=True)`): set or insert
the file entry; intermediate directories are implicit. -/
def fsWrite (fs : Fs) (target : List String) (content : String) : Fs :=
  if (fs.lookup target).isSome then
    fs.map (fun kv => if kv.1 = target then (target, .fileEntry (some content)) else kv)
  else fs ++ [(target, .fileEntry (some content))]

/-- Disk unlink: drop the file entry. -/
def fsUnlink (fs : Fs) (target : List String) : Fs :=
  fs.filter (fun kv => kv.1 ≠ target)

/-- Embeds the apply loop of `approve_proposal` (routes.py lines
124-138): deletes unlink existing targets, creates and updates write the
after-text; `files_affected` records the paths acted on, in order.  An
error aborts the loop, carrying the partially mutated disk. -/
def applyChanges (resolveFn : List String → List String) (root : List String)
    (writeOk : List String → Bool) :
    List FileChange → List String → Fs → Except (String × Fs) (List String × Fs)
  | [], acc, fs => .ok (acc.reverse, fs)
  | fc :: rest, acc, fs =>
    match safe_path resolveFn root fc.path with
    | .error e => .error ("Failed to apply changes: " ++ e, fs)
    | .ok target =>
      if fc.operation = .delete then
        match fs.lookup target with
        | some .dirEntry =>
          .error ("Failed to apply changes: is a directory: " ++ fc.path, fs)
        | some (.fileEntry _) =>
          applyChanges resolveFn root writeOk rest (fc.path :: acc) (fsUnlink fs target)
        | none => applyChanges resolveFn root writeOk rest acc fs
      else
        match fc.after with
        | some content =>
          if writeOk target then
            applyChanges resolveFn root writeOk rest (fc.path :: acc)
              (fsWrite fs target content)
          else .error ("Failed to apply changes: I/O error: " ++ fc.path, fs)
        | none => applyChanges resolveFn root writeOk rest acc fs

/-- Embeds `approve_proposal` (routes.py): look the proposal up, apply
its changes file-by-file, and only on full success remove it from the
store.  The best-effort git commit never alters the result and is
omitted.  On apply failure the HTTP 500 detail carries only the message;
the proposal stays in the store. -/
def approve_proposal (resolveFn : List String → List String)
    (root : List String) (writeOk : List String → Bool)
    (proposal_id : String) (store : Store) (fs : Fs) :
    Except String ProposalResult × Store × Fs :=
  match Store.get store proposal_id with
  | none => (.error ("Proposal " ++ proposal_id ++ " not found"), store, fs)
  | some proposal =>
    match applyChanges resolveFn root writeOk proposal.files [] fs with
    | .error (msg, fsPartial) => (.error msg, store, fsPartial)
    | .ok (files_affected, fs1) =>
      let (removed, store1) := Store.remove store proposal_id
      (.ok { proposal_id := proposal_id, action := "approved"
             files_affected := files_affected
             message := "Applied " ++ toString files_affected.length ++ " file(s)" },
       store1, fs1)

/-! ## Streaming arbiter (backend/app/api/websocket.py)

One turn of `websocket_endpoint` consumes agent events and emits client
frames.  The mutable locals of the endpoint form the arbiter state; the
`XML_START_RE` regex is embedded as a leftmost scan for its five
alternatives. -/

/-- Embeds the regex word-character class used by the boundary in
`<\?xml\b`. -/
def isWordChar (c : Char) : Bool := c.isAlphanum || c = '_'

/-- Does one of the five `XML_START_RE` alternatives match at the head
of this suffix? -/
def xmlTokenAt : List Char → Bool
  | '<' :: '?' :: 'x' :: 'm' :: 'l' :: rest =>
    match rest with
    | [] => true
    | c :: _ => !isWordChar c
  | '<' :: '!' :: '-' :: '-' :: _ => true
  | '<' :: '!' :: '[' :: 'C' :: 'D' :: 'A' :: 'T' :: 'A' :: '[' :: _ => true
  | '<' :: '/' :: c :: _ => c.isAlpha || c = '_'
  | '<' :: c :: _ => c.isAlpha || c = '_'
  | _ => false

/-- Embeds `XML_START_RE.search(text).start()`: index of the leftmost
position where an alternative matches. -/
def findXmlStart : List Char → Option Nat
  | [] => none
  | c :: rest =>
    if xmlTokenAt (c :: rest) then some 0
    else (findXmlStart rest).map (fun i => i + 1)

/-- Embeds the set `XML_TOOL_NAMES` (websocket.py). -/
def xmlToolNames : List String :=
  ["generate_datamodel", "generate_testcase_from_datamodel", "modify_testcase_xml"]

/-- Embeds the mutable locals of one turn of `websocket_endpoint`. -/
structure ArbiterState where
  full_response : String
  suppressed_xml_echo : Bool
  suppressing_xml_echo : Bool
  last_xml_tool_output : Option String
  tool_depth : Nat
deriving DecidableEq, Repr

/-- Turn-start state of the arbiter locals. -/
def initialArbiterState : ArbiterState :=
  { full_response := "", suppressed_xml_echo := false
    suppressing_xml_echo := false, last_xml_tool_output := none
    tool_depth := 0 }

/-- Embeds `_maybe_suppress_xml_echo` (websocket.py): text to stream
(possibly empty) together with the updated suppression state.  The
`if not last_xml_tool_output` falsy test treats both `None` and the
empty string as unset. -/
def maybe_suppress_xml_echo (st : ArbiterState) (text : String) :
    String × ArbiterState :=
  if text = "" then (text, st)
  else if st.suppressing_xml_echo then
    ("", { st with suppressed_xml_echo := true })
  else if (match st.last_xml_tool_output with
           | none => true
           | some s => s == "") then (text, st)
  else
    match findXmlStart text.data with
    | none => (text, st)
    | some i =>
      (pyRstrip (String.mk (text.data.take i)),
       { st with suppressing_xml_echo := true, suppressed_xml_echo := true })

/-- Events of one agent turn, as surfaced by `astream_events`:
`on_chat_model_stream` text, `on_tool_start`, `on_tool_end`, and the
`on_chain_end` final message content. -/
inductive AgentEvent
  | modelChunk (text : String)
  | toolStart (name : String) (args : String)
  | toolEnd (name : String) (output : String)
  | chainEnd (finalText : Option String)
deriving DecidableEq, Repr

/-- Outbound client frames (`type` field of the websocket envelope). -/
inductive Frame
  | stream (content : String)
  | toolCall (name : String) (args : String)
  | toolResult (name : String) (result : String)
  | doneFrame (content : String)
  | errorFrame (content : String)
deriving DecidableEq, Repr

/-- Embeds one iteration of the `astream_events` loop of
`websocket_endpoint`: the state update and the frames sent for one
event. -/
def stepEvent (st : ArbiterState) : AgentEvent → ArbiterState × List Frame
  | .modelChunk text =>
    if st.tool_depth > 0 then (st, [])
    else if text = "" then (st, [])
    else
      let (safe, st1) := maybe_suppress_xml_echo st text
      if safe = "" then (st1, [])
      else ({ st1 with full_response := st1.full_response ++ safe },
            [.stream safe])
  | .toolStart name args =>
    ({ st with tool_depth := st.tool_depth + 1 }, [.toolCall name args])
  | .toolEnd name output =>
    let st1 := { st with tool_depth := st.tool_depth - 1 }
    let st2 :=
      if xmlToolNames.contains name then
        let stripped := pyLstrip output
        if stripped.data.head? = some '<' ∧ stripped.length ≥ 200 then
          { st1 with last_xml_tool_output := some output }
        else st1
      else st1
    (st2, [.toolResult name output])
  | .chainEnd finalText =>
    match finalText with
    | some content =>
      if content ≠ "" ∧ content ≠ st.full_response ∧
          st.suppressed_xml_echo = false then
        if st.full_response = "" then
          ({ st with full_response := content }, [.stream content])
        else (st, [])
      else (st, [])
    | none => (st, [])

/-- Folds `stepEvent` over the events of a turn, collecting frames in
emission order. -/
def processEvents : List AgentEvent → ArbiterState → ArbiterState × List Frame
  | [], st => (st, [])
  | e :: rest, st =>
    let (st1, fs1) := stepEvent st e
    let (st2, fs2) := processEvents rest st1
    (st2, fs1 ++ fs2)

/-- Embeds one full turn of `websocket_endpoint`: the events consumed
before the turn either completes (then one `done` frame with the
accumulated text) or raises (then one `error` frame with the message,
and no `done`). -/
def runTurn (events : List AgentEvent) (abort : Option String) : List Frame :=
  let (st, frames) := processEvents events initialArbiterState
  match abort with
  | none => frames ++ [.doneFrame st.full_response]
  | some e => frames ++ [.errorFrame e]

/-- Embeds the `while True` connection loop: each inbound message drives
one turn to its terminal frame, then the loop waits for the next
message — also after an error frame. -/
def connectionLoop : List (List AgentEvent × Option String) → List Frame
  | [] => []
  | t :: rest => runTurn t.1 t.2 ++ connectionLoop rest

/-! ## Supporting lemmas -/

/-- Membership in a stable descending insertion. -/
theorem mem_insertByCreatedDesc {x p : ChangeProposal}
    {l : List ChangeProposal} :
    x ∈ insertByCreatedDesc p l ↔ x = p ∨ x ∈ l := by
  induction l with
  | nil => simp [insertByCreatedDesc]
  | cons q rest ih =>
    simp only [insertByCreatedDesc]
    by_cases hc : q.created_at < p.created_at
    · simp only [if_pos hc, List.mem_cons]
    · simp only [if_neg hc, List.mem_cons, ih]
      tauto

/-- Stable descending insertion preserves sortedness by descending
creation time. -/
theorem pairwise_insertByCreatedDesc {p : ChangeProposal}
    {l : List ChangeProposal}
    (h : l.Pairwise (fun a b => b.created_at ≤ a.created_at)) :
    (insertByCreatedDesc p l).Pairwise
      (fun a b => b.created_at ≤ a.created_at) := by
  induction l with
  | nil => simp [insertByCreatedDesc]
  | cons q rest ih =>
    rcases List.pairwise_cons.mp h with ⟨hq, hrest⟩
    simp only [insertByCreatedDesc]
    by_cases hc : q.created_at < p.created_at
    · simp only [if_pos hc]
      refine List.pairwise_cons.mpr ⟨?_, h⟩
      intro b hb
      rcases List.mem_cons.mp hb with hb | hb
      · subst hb; omega
      · have := hq b hb; omega
    · simp only [if_neg hc]
      refine List.pairwise_cons.mpr ⟨?_, ih hrest⟩
      intro b hb
      rcases mem_insertByCreatedDesc.mp hb with hb | hb
      · subst hb; omega
      · exact hq b hb

/-- The sort used by `list_pending` is sorted by descending creation
time. -/
theorem pairwise_sortByCreatedDesc (l : List ChangeProposal) :
    (sortByCreatedDesc l).Pairwise
      (fun a b => b.created_at ≤ a.created_at) := by
  unfold sortByCreatedDesc
  suffices h : ∀ acc : List ChangeProposal,
      acc.Pairwise (fun a b => b.created_at ≤ a.created_at) →
      (l.foldl (fun acc p => insertByCreatedDesc p acc) acc).Pairwise
        (fun a b => b.created_at ≤ a.created_at) by
    exact h [] (by simp)
  induction l with
  | nil => intro acc hacc; simpa using hacc
  | cons p rest ih =>
    intro acc hacc
    exact ih _ (pairwise_insertByCreatedDesc hacc)

/-! ## Claim C9 — diff statistics -/

/-- C9: for a Create (before absent) `lines_added` is the line count of
the after-text and `lines_removed` is 0; for a Delete (after absent) the
mirror; for an Update the added count is the number of after-lines not
present among the before-lines and symmetrically for removed — in
particular before `"a\nb"`, after `"a\nc"` gives 1 added, 1 removed. -/
theorem c9_diff_statistics (fc : FileChange) :
    (∀ a, fc.before = none → fc.after = some a →
      fc.lines_added = (pySplitlines a).length ∧ fc.lines_removed = 0) ∧
    (∀ b, fc.after = none → fc.before = some b →
      fc.lines_removed = (pySplitlines b).length ∧ fc.lines_added = 0) ∧
    (∀ a b, fc.before = some b → fc.after = some a →
      fc.lines_added = ((pySplitlines a).filter
        (fun line => ¬ (pySplitlines b).contains line)).length ∧
      fc.lines_removed = ((pySplitlines b).filter
        (fun line => ¬ (pySplitlines a).contains line)).length) ∧
    (FileChange.lines_added ⟨"f", .update, some "a\nb", some "a\nc"⟩ = 1 ∧
     FileChange.lines_removed ⟨"f", .update, some "a\nb", some "a\nc"⟩ = 1) := by
  refine ⟨?_, ?_, ?_, by decide⟩
  · intro a hb ha
    simp [FileChange.lines_added, FileChange.lines_removed, hb, ha]
  · intro b ha hb
    simp [FileChange.lines_added, FileChange.lines_removed, hb, ha]
  · intro a b hb ha
    simp [FileChange.lines_added, FileChange.lines_removed, hb, ha]

/-- Witness for C9 at a concrete Create change. -/
theorem c9_diff_statistics_witness :
    FileChange.lines_added ⟨"n.md", .create, none, some "x\ny"⟩ =
      (pySplitlines "x\ny").length ∧
    FileChange.lines_removed ⟨"n.md", .create, none, some "x\ny"⟩ = 0 :=
  (c9_diff_statistics ⟨"n.md", .create, none, some "x\ny"⟩).1 "x\ny" rfl rfl

/-! ## Claim C8 — expiry sweep and ordering of listPending -/

/-- Reformulation of `list_pending` following the specification's words:
keep exactly the proposals whose age is within the 1-hour TTL, then list
their summaries newest first. -/
def listPendingSpec (now : Int) (s : Store) : List ProposalSummary :=
  (sortByCreatedDesc
    ((s.filter (fun kv => now - kv.2.created_at ≤ expiry_seconds)).map
      Prod.snd)).map ProposalSummary.from_proposal

/-- C8: `list_pending` first removes exactly the proposals whose age
exceeds the 1-hour TTL and returns the rest sorted by creation time,
newest first; a proposal created at time T is present at T + 59 minutes
and absent at T + 61 minutes with no explicit removal call. -/
theorem c8_expiry_and_order (now : Int) (s : Store) (pid : String)
    (p : ChangeProposal) :
    (list_pending now s).1 = listPendingSpec now s ∧
    (list_pending now s).1.Pairwise
      (fun a b => b.created_at ≤ a.created_at) ∧
    (list_pending (p.created_at + 59 * 60) [(pid, p)]).1 =
      [ProposalSummary.from_proposal p] ∧
    (list_pending (p.created_at + 61 * 60) [(pid, p)]).1 = [] := by
  refine ⟨?_, ?_, ?_, ?_⟩
  · have hfilter : s.filter
        (fun kv => ¬ (kv.2.created_at < now - expiry_seconds)) =
        s.filter (fun kv => now - kv.2.created_at ≤ expiry_seconds) := by
      refine List.filter_congr ?_
      intro kv _
      simp only [decide_eq_decide]
      omega
    simp only [list_pending, cleanup_expired, listPendingSpec, hfilter]
  · have h := pairwise_sortByCreatedDesc
      ((cleanup_expired now s).map Prod.snd)
    simp only [list_pending]
    exact h.map ProposalSummary.from_proposal (fun a b hab => hab)
  · have h1 : p.created_at + 3540 ≤ p.created_at + expiry_seconds := by
      simp only [expiry_seconds]; omega
    simp [list_pending, cleanup_expired, h1, sortByCreatedDesc,
      insertByCreatedDesc]
  · have h1 : ¬ (p.created_at + 3660 ≤ p.created_at + expiry_seconds) := by
      simp only [expiry_seconds]; omega
    simp [list_pending, cleanup_expired, h1, sortByCreatedDesc]

/-! ## Claim C10 — failed workspace selection leaves the registry
unchanged -/

/-- C10: selecting a path that does not exist or is not a directory
fails with an error and returns the manager state unchanged — the root
and all git metadata are only replaced on a successful selection. -/
theorem c10_select_workspace_invalid (resolveFn : String → List String)
    (resolveAgain : List String → List String) (probe : GitProbe)
    (path : String) (st : WsState)
    (h : probe.kind (resolveFn path) ≠ .dir) :
    (∃ msg,
      (select_workspace resolveFn resolveAgain probe path st).1 =
        .error msg) ∧
    (select_workspace resolveFn resolveAgain probe path st).2 = st := by
  unfold select_workspace
  cases hk : probe.kind (resolveFn path) with
  | missing =>
    refine ⟨⟨"Path does not exist: " ++ path, ?_⟩, ?_⟩ <;> simp [hk]
  | file =>
    refine ⟨⟨"Path is not a directory: " ++ path, ?_⟩, ?_⟩ <;> simp [hk]
  | dir => exact absurd hk h

/-- Witness for C10 at a concrete missing path. -/
theorem c10_select_workspace_invalid_witness :
    (∃ msg,
      (select_workspace (fun _ => ["p"]) (fun l => l)
        ⟨fun _ => PathKind.missing, fun _ => none, fun _ => none⟩ "p"
        ⟨["old"], false, none, none⟩).1 = .error msg) ∧
    (select_workspace (fun _ => ["p"]) (fun l => l)
      ⟨fun _ => PathKind.missing, fun _ => none, fun _ => none⟩ "p"
      ⟨["old"], false, none, none⟩).2 = ⟨["old"], false, none, none⟩ :=
  c10_select_workspace_invalid (fun _ => ["p"]) (fun l => l)
    ⟨fun _ => PathKind.missing, fun _ => none, fun _ => none⟩ "p"
    ⟨["old"], false, none, none⟩ (by decide)

/-! ## Claim C1 — sandbox containment -/

/-- C1: for every OS resolution behaviour (hence under arbitrary
symlink indirection) and every relative path, `safe_path` returns the
root itself for empty or `/` input, and otherwise either fails with a
path-escape error or returns a fully normalized path of which the root
is a prefix — never a path outside the root. -/
theorem c1_sandbox_containment (resolveFn : List String → List String)
    (root : List String) (rel : String)
    (hroot : normalizedPath root = true)
    (hres : ∀ p, normalizedPath (resolveFn p) = true) :
    safe_path resolveFn root "" = .ok root ∧
    safe_path resolveFn root "/" = .ok root ∧
    ∀ q, safe_path resolveFn root rel = .ok q →
      root <+: q ∧ normalizedPath q = true := by
  refine ⟨by simp [safe_path], by simp [safe_path], ?_⟩
  intro q hq
  unfold safe_path at hq
  by_cases hre : rel = "" ∨ rel = "/"
  · rw [if_pos hre] at hq
    cases hq
    exact ⟨List.prefix_refl root, hroot⟩
  · rw [if_neg hre] at hq
    dsimp only at hq
    split at hq
    · next hpre =>
      cases hq
      exact ⟨List.isPrefixOf_iff_prefix.mp hpre, hres _⟩
    · cases hq

/-- Witness for C1 at a concrete root and resolution function. -/
theorem c1_sandbox_containment_witness :
    normalizedPath ["r"] = true ∧
    (safe_path (fun _ => ["r", "a"]) ["r"] "" = .ok ["r"] ∧
     safe_path (fun _ => ["r", "a"]) ["r"] "/" = .ok ["r"] ∧
     ∀ q, safe_path (fun _ => ["r", "a"]) ["r"] "x" = .ok q →
       ["r"] <+: q ∧ normalizedPath q = true) := by
  refine ⟨by decide, c1_sandbox_containment (fun _ => ["r", "a"]) ["r"] "x"
    (by decide) ?_⟩
  intro p
  show normalizedPath ["r", "a"] = true
  decide

/-! ## Claim C6 — nested model output never reaches the client -/

/-- C6: a model text chunk arriving while the tool depth is positive is
dropped entirely and emits no frame, while tool_call and tool_result
frames are emitted for every tool start and end regardless of depth; for
the sequence ToolStarted, ModelTextChunk "nested", ToolFinished,
ModelTextChunk "top" the emitted stream events contain "top" but never
"nested". -/
theorem c6_nested_suppression :
    (∀ st text, st.tool_depth > 0 →
      stepEvent st (.modelChunk text) = (st, [])) ∧
    (∀ st name args,
      (stepEvent st (.toolStart name args)).2 = [.toolCall name args]) ∧
    (∀ st name out,
      (stepEvent st (.toolEnd name out)).2 = [.toolResult name out]) ∧
    runTurn [.toolStart "sub" "", .modelChunk "nested",
        .toolEnd "sub" "result", .modelChunk "top"] none =
      [.toolCall "sub" "", .toolResult "sub" "result",
       .stream "top", .doneFrame "top"] ∧
    Frame.stream "nested" ∉ runTurn [.toolStart "sub" "",
      .modelChunk "nested", .toolEnd "sub" "result",
      .modelChunk "top"] none := by
  refine ⟨?_, ?_, ?_, by decide, by decide⟩
  · intro st text h
    simp [stepEvent, h]
  · intro st name args
    rfl
  · intro st name out
    rfl

/-- Witness for C6 at a concrete state of depth 1. -/
theorem c6_nested_suppression_witness :
    (⟨"", false, false, none, 1⟩ : ArbiterState).tool_depth > 0 ∧
    stepEvent ⟨"", false, false, none, 1⟩ (.modelChunk "nested") =
      (⟨"", false, false, none, 1⟩, []) :=
  ⟨by decide, c6_nested_suppression.1 ⟨"", false, false, none, 1⟩ "nested"
    (by decide)⟩

/-! ## Claim C5 — echo suppression of large XML tool payloads -/

/-- A concrete 200-character XML-looking tool output. -/
def c5BigOut : String := String.mk ('<' :: List.replicate 199 'a')

/-- C5: a designated XML tool finishing with a result that, after
stripping leading whitespace, starts with `<` and is at least 200
characters long primes echo suppression; the next top-level,
non-suppressed model chunk containing a markup-start token emits only
its prefix before the token, trimmed of trailing whitespace and only if
non-empty, and switches suppression on; while suppression is on every
model chunk is dropped, and no event ever switches suppression off
within the turn. -/
theorem c5_echo_suppression :
    (∀ st name out, xmlToolNames.contains name = true →
      (pyLstrip out).data.head? = some '<' → (pyLstrip out).length ≥ 200 →
      ((stepEvent st (.toolEnd name out)).1).last_xml_tool_output =
        some out) ∧
    (∀ st text i s0, st.tool_depth = 0 →
      st.suppressing_xml_echo = false →
      st.last_xml_tool_output = some s0 → s0 ≠ "" →
      findXmlStart text.data = some i →
      (stepEvent st (.modelChunk text)).2 =
        (if pyRstrip (String.mk (text.data.take i)) = "" then []
         else [.stream (pyRstrip (String.mk (text.data.take i)))]) ∧
      ((stepEvent st (.modelChunk text)).1).suppressing_xml_echo = true) ∧
    (∀ st text, st.suppressing_xml_echo = true →
      (stepEvent st (.modelChunk text)).2 = []) ∧
    (∀ st e, st.suppressing_xml_echo = true →
      ((stepEvent st e).1).suppressing_xml_echo = true) := by
  refine ⟨?_, ?_, ?_, ?_⟩
  · intro st name out h1 h2 h3
    dsimp only [stepEvent]
    rw [if_pos h1, if_pos ⟨h2, h3⟩]
  · intro st text i s0 hd hsup hlast hs0 hfind
    have htext : ¬ (text = "") := by
      intro h
      subst h
      simp [findXmlStart] at hfind
    have hm : maybe_suppress_xml_echo st text =
        (pyRstrip (String.mk (text.data.take i)),
         { st with suppressing_xml_echo := true,
                   suppressed_xml_echo := true }) := by
      unfold maybe_suppress_xml_echo
      rw [if_neg htext, if_neg (by simp [hsup]), hlast]
      rw [if_neg (by simp [hs0]), hfind]
    dsimp only [stepEvent]
    rw [hd]
    rw [if_neg (by omega : ¬ (0 : Nat) > 0), if_neg htext, hm]
    by_cases hc : pyRstrip (String.mk (text.data.take i)) = "" <;>
      simp [hc]
  · intro st text h
    by_cases hd : st.tool_depth > 0
    · simp [stepEvent, hd]
    · by_cases ht : text = ""
      · simp [stepEvent, hd, ht]
      · simp [stepEvent, maybe_suppress_xml_echo, hd, ht, h]
  · intro st e h
    cases e with
    | modelChunk text =>
      by_cases hd : st.tool_depth > 0
      · simp [stepEvent, hd, h]
      · by_cases ht : text = ""
        · simp [stepEvent, hd, ht, h]
        · simp [stepEvent, maybe_suppress_xml_echo, hd, ht, h]
    | toolStart name args => simp [stepEvent, h]
    | toolEnd name out =>
      dsimp only [stepEvent]
      split_ifs <;> simp [h]
    | chainEnd ft =>
      cases ft with
      | none => simp [stepEvent, h]
      | some content =>
        dsimp only [stepEvent]
        split_ifs <;> simp [h]

/-- Witness for C5: priming by a concrete 200-character XML payload,
then suppression of a concrete echoing chunk. -/
theorem c5_echo_suppression_witness :
    (((stepEvent initialArbiterState
        (.toolEnd "generate_datamodel" c5BigOut)).1).last_xml_tool_output =
      some c5BigOut) ∧
    ((stepEvent ⟨"", false, false, some c5BigOut, 0⟩
        (.modelChunk "Saved: <DataModel>")).2 =
      (if pyRstrip (String.mk ("Saved: <DataModel>".data.take 7)) = "" then []
       else [.stream
         (pyRstrip (String.mk ("Saved: <DataModel>".data.take 7)))]) ∧
     ((stepEvent ⟨"", false, false, some c5BigOut, 0⟩
        (.modelChunk "Saved: <DataModel>")).1).suppressing_xml_echo = true) :=
  ⟨c5_echo_suppression.1 initialArbiterState "generate_datamodel" c5BigOut
      (by decide) (by decide) (by decide),
   c5_echo_suppression.2.1 ⟨"", false, false, some c5BigOut, 0⟩
      "Saved: <DataModel>" 7 c5BigOut rfl rfl rfl (by decide) (by decide)⟩

/-! ## Claim C7 — exactly one terminal frame per turn -/

/-- Terminal frames of the client turn state machine. -/
def isTerminal : Frame → Bool
  | .doneFrame _ => true
  | .errorFrame _ => true
  | _ => false

/-- No single event ever emits a done or error frame. -/
theorem stepEvent_no_terminal (st : ArbiterState) (e : AgentEvent) :
    ∀ f ∈ (stepEvent st e).2, isTerminal f = false := by
  intro f hf
  cases e with
  | modelChunk text =>
    by_cases hd : st.tool_depth > 0
    · simp [stepEvent, hd] at hf
    · by_cases ht : text = ""
      · simp [stepEvent, hd, ht] at hf
      · rcases hp : maybe_suppress_xml_echo st text with ⟨safe, st1⟩
        dsimp only [stepEvent] at hf
        rw [if_neg hd, if_neg ht, hp] at hf
        by_cases hs : safe = ""
        · simp [hs] at hf
        · simp only [if_neg hs, List.mem_singleton] at hf
          subst hf
          rfl
  | toolStart name args =>
    simp only [stepEvent, List.mem_singleton] at hf
    subst hf
    rfl
  | toolEnd name out =>
    dsimp only [stepEvent] at hf
    rw [List.mem_singleton] at hf
    subst hf
    rfl
  | chainEnd ft =>
    cases ft with
    | none => simp [stepEvent] at hf
    | some content =>
      dsimp only [stepEvent] at hf
      split_ifs at hf <;> simp at hf
      subst hf
      rfl

/-- No event consumption emits a done or error frame before the turn
finishes. -/
theorem processEvents_no_terminal (events : List AgentEvent)
    (st : ArbiterState) :
    ∀ f ∈ (processEvents events st).2, isTerminal f = false := by
  induction events generalizing st with
  | nil => intro f hf; simp [processEvents] at hf
  | cons e rest ih =>
    intro f hf
    rcases hp : stepEvent st e with ⟨st1, fs1⟩
    dsimp only [processEvents] at hf
    rw [hp] at hf
    rcases hq : processEvents rest st1 with ⟨st2, fs2⟩
    rw [hq] at hf
    rcases List.mem_append.mp hf with hf | hf
    · have := stepEvent_no_terminal st e f
      rw [hp] at this
      exact this hf
    · have := ih st1 f
      rw [hq] at this
      exact this hf

/-- C7: every turn ends with exactly one terminal frame — a done frame
carrying the accumulated visible text when consumption completes
normally, an error frame and no done frame when the agent execution
raises — and the connection loop continues with the next turn after
either terminal frame. -/
theorem c7_terminal_frames (events : List AgentEvent)
    (abort : Option String)
    (rest : List (List AgentEvent × Option String)) :
    (runTurn events abort =
      (processEvents events initialArbiterState).2 ++
        [match abort with
         | none => Frame.doneFrame
             (processEvents events initialArbiterState).1.full_response
         | some e => Frame.errorFrame e] ∧
      ∀ f ∈ (processEvents events initialArbiterState).2,
        isTerminal f = false) ∧
    ((runTurn events abort).filter isTerminal).length = 1 ∧
    (∀ e, abort = some e →
      ∀ s, Frame.doneFrame s ∉ runTurn events abort) ∧
    connectionLoop ((events, abort) :: rest) =
      runTurn events abort ++ connectionLoop rest := by
  have hsplit : runTurn events abort =
      (processEvents events initialArbiterState).2 ++
        [match abort with
         | none => Frame.doneFrame
             (processEvents events initialArbiterState).1.full_response
         | some e => Frame.errorFrame e] := by
    unfold runTurn
    rcases hp : processEvents events initialArbiterState with ⟨st, frames⟩
    cases abort <;> simp [hp]
  have hbody := processEvents_no_terminal events initialArbiterState
  refine ⟨⟨hsplit, hbody⟩, ?_, ?_, rfl⟩
  · rw [hsplit, List.filter_append]
    have h1 : (processEvents events initialArbiterState).2.filter
        isTerminal = [] := by
      rw [List.filter_eq_nil_iff]
      intro f hf
      simp [hbody f hf]
    rw [h1]
    cases abort <;> rfl
  · intro e he s hmem
    rw [hsplit, he] at hmem
    rcases List.mem_append.mp hmem with hmem | hmem
    · have := hbody _ hmem
      simp [isTerminal] at this
    · simp at hmem

/-- Witness for C7 at a concrete aborted turn. -/
theorem c7_terminal_frames_witness :
    some "boom" = some "boom" ∧
    ∀ s, Frame.doneFrame s ∉
      runTurn [AgentEvent.modelChunk "hi"] (some "boom") :=
  ⟨rfl, (c7_terminal_frames [AgentEvent.modelChunk "hi"] (some "boom")
    []).2.2.1 "boom" rfl⟩

/-! ## Claim C2 — identifier generation in createProposal -/

/-- Looking up the key of the head entry. -/
theorem lookup_cons_eq {α β : Type} [BEq α] [LawfulBEq α] (a : α) (b : β)
    (m : List (α × β)) : List.lookup a ((a, b) :: m) = some b := by
  simp [List.lookup]

/-- Looking up another key skips the head entry. -/
theorem lookup_cons_ne {α β : Type} [BEq α] [LawfulBEq α] {k a : α}
    (b : β) (m : List (α × β)) (h : k ≠ a) :
    List.lookup k ((a, b) :: m) = List.lookup k m := by
  have hne : (k == a) = false := by simpa [beq_eq_false_iff_ne] using h
  simp [List.lookup, hne]

/-- Replacing the value under key `k` finds the new value. -/
theorem lookup_replaceMap (m : Store) (k : String) (v : ChangeProposal)
    (h : (List.lookup k m).isSome) :
    List.lookup k (m.map (fun kv => if kv.1 = k then (k, v) else kv)) =
      some v := by
  induction m with
  | nil => simp [List.lookup] at h
  | cons kv m ih =>
    rcases kv with ⟨a, b⟩
    rw [List.map_cons]
    by_cases hak : a = k
    · subst hak
      rw [if_pos (show ((a, b) : String × ChangeProposal).1 = a from rfl),
        lookup_cons_eq]
    · have hka : k ≠ a := fun he => hak he.symm
      have h' : (List.lookup k m).isSome := by
        rwa [lookup_cons_ne b m hka] at h
      rw [if_neg (show ¬ ((a, b) : String × ChangeProposal).1 = k from hak),
        lookup_cons_ne b _ hka]
      exact ih h'

/-- Replacing the value under key `k` leaves other keys unchanged. -/
theorem lookup_replaceMap_ne (m : Store) (k k' : String)
    (v : ChangeProposal) (h : k' ≠ k) :
    List.lookup k' (m.map (fun kv => if kv.1 = k then (k, v) else kv)) =
      List.lookup k' m := by
  induction m with
  | nil => rfl
  | cons kv m ih =>
    rcases kv with ⟨a, b⟩
    rw [List.map_cons]
    by_cases hak : a = k
    · subst hak
      rw [if_pos (show ((a, b) : String × ChangeProposal).1 = a from rfl),
        lookup_cons_ne v _ h, lookup_cons_ne b _ h]
      exact ih
    · rw [if_neg (show ¬ ((a, b) : String × ChangeProposal).1 = k from hak)]
      by_cases hka : k' = a
      · subst hka
        rw [lookup_cons_eq, lookup_cons_eq]
      · rw [lookup_cons_ne b _ hka, lookup_cons_ne b _ hka]
        exact ih

/-- Appending one entry under a different key does not change a lookup. -/
theorem lookup_append_single_ne (m : Store) (k k' : String)
    (v : ChangeProposal) (h : k' ≠ k) :
    List.lookup k' (m ++ [(k, v)]) = List.lookup k' m := by
  induction m with
  | nil =>
    show List.lookup k' [(k, v)] = none
    rw [lookup_cons_ne v [] h]
    rfl
  | cons kv m ih =>
    rcases kv with ⟨a, b⟩
    by_cases hka : k' = a
    · subst hka
      rw [List.cons_append, lookup_cons_eq, lookup_cons_eq]
    · rw [List.cons_append, lookup_cons_ne b _ hka, lookup_cons_ne b _ hka]
      exact ih

/-- A lookup that fails on the prefix continues in the suffix. -/
theorem lookup_append_of_none (m : Store) (k : String) (l₂ : Store)
    (h : List.lookup k m = none) :
    List.lookup k (m ++ l₂) = List.lookup k l₂ := by
  induction m with
  | nil => rfl
  | cons kv m ih =>
    rcases kv with ⟨a, b⟩
    by_cases hka : k = a
    · subst hka
      rw [lookup_cons_eq] at h
      cases h
    · rw [lookup_cons_ne b m hka] at h
      rw [List.cons_append, lookup_cons_ne b _ hka]
      exact ih h

/-- Dict assignment makes the assigned key map to the assigned value. -/
theorem lookup_dictInsert_self (m : Store) (k : String)
    (v : ChangeProposal) :
    List.lookup k (dictInsert m k v) = some v := by
  unfold dictInsert
  by_cases h : (List.lookup k m).isSome
  · rw [if_pos h]
    exact lookup_replaceMap m k v h
  · rw [if_neg h]
    have hnone : List.lookup k m = none := by
      cases hx : List.lookup k m
      · rfl
      · rw [hx] at h; simp at h
    rw [lookup_append_of_none m k _ hnone, lookup_cons_eq]

/-- Dict assignment leaves every other key unchanged. -/
theorem lookup_dictInsert_ne (m : Store) (k k' : String)
    (v : ChangeProposal) (h : k' ≠ k) :
    List.lookup k' (dictInsert m k v) = List.lookup k' m := by
  unfold dictInsert
  by_cases hs : (List.lookup k m).isSome
  · rw [if_pos hs]
    exact lookup_replaceMap_ne m k k' v h
  · rw [if_neg hs]
    exact lookup_append_single_ne m k k' v h

/-- A sequence of `create_proposal` calls, keeping the intermediate
stores. -/
def createMany : List CreateReq → Store → List ChangeProposal × Store
  | [], s => ([], s)
  | r :: rest, s =>
    ((create_proposal r s).1 ::
       (createMany rest (create_proposal r s).2).1,
     (createMany rest (create_proposal r s).2).2)

/-- Later create calls with other identifiers do not disturb a key. -/
theorem createMany_preserves (reqs : List CreateReq) (s : Store)
    (k : String) (h : ∀ r ∈ reqs, r.gen_id ≠ k) :
    List.lookup k (createMany reqs s).2 = List.lookup k s := by
  induction reqs generalizing s with
  | nil => rfl
  | cons r rest ih =>
    have h1 := ih (create_proposal r s).2
      (fun r' hr' => h r' (List.mem_cons_of_mem _ hr'))
    have h2 : List.lookup k (create_proposal r s).2 = List.lookup k s :=
      lookup_dictInsert_ne s r.gen_id k _
        (fun he => h r (List.mem_cons_self r rest) he.symm)
    calc List.lookup k (createMany (r :: rest) s).2
        = List.lookup k (createMany rest (create_proposal r s).2).2 := rfl
      _ = List.lookup k (create_proposal r s).2 := h1
      _ = List.lookup k s := h2

/-- The pair of concrete create requests of the C2 counterexample: the
generated 8-character identifiers happen to collide. -/
def c2Reqs : List CreateReq :=
  [⟨"ab12cd34", 0, "a.txt", .create, none, some "hi", ""⟩,
   ⟨"ab12cd34", 1, "b.txt", .create, none, some "yo", ""⟩]

/-- C2 counterexample: `create_proposal` performs no collision check —
when the generated identifiers collide, the resulting identifiers are
not pairwise distinct and the first proposal is overwritten, hence not
retrievable via `get`. -/
theorem c2_counterexample :
    ((createMany c2Reqs []).1.map ChangeProposal.proposal_id =
      ["ab12cd34", "ab12cd34"]) ∧
    ¬ (((createMany c2Reqs []).1.map ChangeProposal.proposal_id).Nodup ∧
       ∀ p ∈ (createMany c2Reqs []).1,
         Store.get (createMany c2Reqs []).2 p.proposal_id = some p) := by
  decide

/-- C2 as amended: identifiers are taken from the generator with no
collision check; whenever the generated identifiers are pairwise
distinct and fresh for the store, all resulting identifiers are pairwise
distinct and each created proposal is retrievable via `get` under its
assigned identifier. -/
theorem c2_unique_ids_when_fresh (reqs : List CreateReq) (s : Store)
    (hnodup : (reqs.map CreateReq.gen_id).Nodup)
    (hfresh : ∀ r ∈ reqs, Store.get s r.gen_id = none) :
    ((createMany reqs s).1.map ChangeProposal.proposal_id =
      reqs.map CreateReq.gen_id) ∧
    ((createMany reqs s).1.map ChangeProposal.proposal_id).Nodup ∧
    ∀ p ∈ (createMany reqs s).1,
      Store.get (createMany reqs s).2 p.proposal_id = some p := by
  induction reqs generalizing s with
  | nil => exact ⟨rfl, List.nodup_nil, by intro p hp; simp [createMany] at hp⟩
  | cons r rest ih =>
    have hnodup' : (rest.map CreateReq.gen_id).Nodup :=
      (List.nodup_cons.mp hnodup).2
    have hnotin : r.gen_id ∉ rest.map CreateReq.gen_id :=
      (List.nodup_cons.mp hnodup).1
    have hfresh' : ∀ r' ∈ rest,
        Store.get (create_proposal r s).2 r'.gen_id = none := by
      intro r' hr'
      have hne : r'.gen_id ≠ r.gen_id := by
        intro he
        refine hnotin ?_
        rw [← he]
        exact List.mem_map_of_mem CreateReq.gen_id hr'
      show List.lookup r'.gen_id (dictInsert s r.gen_id _) = none
      rw [lookup_dictInsert_ne s r.gen_id r'.gen_id _ hne]
      exact hfresh r' (List.mem_cons_of_mem _ hr')
    rcases ih (create_proposal r s).2 hnodup' hfresh' with ⟨hids, hnd, hget⟩
    have hmapeq : (createMany (r :: rest) s).1.map
        ChangeProposal.proposal_id =
        r.gen_id :: rest.map CreateReq.gen_id := by
      show (create_proposal r s).1.proposal_id ::
        (createMany rest (create_proposal r s).2).1.map
          ChangeProposal.proposal_id = _
      rw [hids]
      rfl
    refine ⟨hmapeq, ?_, ?_⟩
    · rw [hmapeq]
      exact List.Nodup.cons hnotin hnodup'
    · intro p hp
      rcases List.mem_cons.mp hp with hp | hp
      · subst hp
        show List.lookup (create_proposal r s).1.proposal_id
          (createMany rest (create_proposal r s).2).2 = _
        have hnein : ∀ r' ∈ rest,
            r'.gen_id ≠ (create_proposal r s).1.proposal_id := by
          intro r' hr' he
          refine hnotin ?_
          have he2 : r'.gen_id = r.gen_id := he
          rw [← he2]
          exact List.mem_map_of_mem CreateReq.gen_id hr'
        rw [createMany_preserves rest (create_proposal r s).2 _ hnein]
        exact lookup_dictInsert_self s r.gen_id _
      · exact hget p hp

/-- The pair of concrete create requests with distinct generated
identifiers for the C2 witness. -/
def c2GoodReqs : List CreateReq :=
  [⟨"a1b2c3d4", 0, "a.txt", .create, none, some "hi", ""⟩,
   ⟨"e5f6a7b8", 1, "b.txt", .create, none, some "yo", ""⟩]

/-- Witness for the amended C2 at two concrete distinct identifiers. -/
theorem c2_unique_ids_when_fresh_witness :
    ((createMany c2GoodReqs []).1.map ChangeProposal.proposal_id =
      c2GoodReqs.map CreateReq.gen_id) ∧
    ((createMany c2GoodReqs []).1.map ChangeProposal.proposal_id).Nodup ∧
    ∀ p ∈ (createMany c2GoodReqs []).1,
      Store.get (createMany c2GoodReqs []).2 p.proposal_id = some p :=
  c2_unique_ids_when_fresh c2GoodReqs [] (by decide) (by decide)

/-! ## Claim C3 — behaviour of approve on apply failure -/

/-- Removing the entries keyed `k` makes looking up `k` fail. -/
theorem store_lookup_remove_self (s : Store) (k : String) :
    List.lookup k (s.filter (fun kv => kv.1 ≠ k)) = none := by
  induction s with
  | nil => rfl
  | cons kv s ih =>
    rcases kv with ⟨a, b⟩
    by_cases hak : a = k
    · subst hak
      have hp : (decide (((a, b) : String × ChangeProposal).1 ≠ a)) = false := by
        simp
      rw [List.filter_cons, hp, if_neg (by simp)]
      exact ih
    · have hp : (decide (((a, b) : String × ChangeProposal).1 ≠ k)) = true := by
        simpa using hak
      rw [List.filter_cons, hp, if_pos rfl,
        lookup_cons_ne b _ (fun he => hak he.symm)]
      exact ih

/-- The concrete two-file proposal of the C3 counterexample. -/
def c3Proposal : ChangeProposal :=
  { proposal_id := "p1"
    files := [⟨"a.txt", .create, none, some "A"⟩,
              ⟨"b.txt", .create, none, some "B"⟩]
    summary := "two creates"
    created_at := 0 }

/-- The concrete store of the C3 counterexample. -/
def c3Store : Store := [("p1", c3Proposal)]

/-- C3 counterexample: when the second write fails, `approve_proposal`
returns only the failure message (no succeeded-path report), the first
write stays on disk, and the proposal is still in the store — it is not
removed and stays pending, contrary to the claim. -/
theorem c3_counterexample :
    (approve_proposal (fun l => l) ["ws"]
        (fun t => t != ["ws", "b.txt"]) "p1" c3Store []).1 =
      .error "Failed to apply changes: I/O error: b.txt" ∧
    List.lookup ["ws", "a.txt"]
      (approve_proposal (fun l => l) ["ws"]
        (fun t => t != ["ws", "b.txt"]) "p1" c3Store []).2.2 =
      some (.fileEntry (some "A")) ∧
    Store.get (approve_proposal (fun l => l) ["ws"]
        (fun t => t != ["ws", "b.txt"]) "p1" c3Store []).2.1 "p1" =
      some c3Proposal := by
  refine ⟨?_, ?_, ?_⟩ <;> rfl

/-- C3 as amended: approve applies the changes file-by-file; when a
change fails, the error carries only the failure message, the changes
already applied stay on disk, and the proposal remains in the store —
it is removed only when every change applies successfully. -/
theorem c3_apply_failure_behavior (resolveFn : List String → List String)
    (root : List String) (writeOk : List String → Bool) (pid : String)
    (store : Store) (fs : Fs) :
    (∀ msg,
      (approve_proposal resolveFn root writeOk pid store fs).1 =
        .error msg →
      (approve_proposal resolveFn root writeOk pid store fs).2.1 =
        store) ∧
    (∀ r,
      (approve_proposal resolveFn root writeOk pid store fs).1 = .ok r →
      Store.get
        (approve_proposal resolveFn root writeOk pid store fs).2.1 pid =
        none) := by
  cases hget : Store.get store pid with
  | none =>
    have hred : approve_proposal resolveFn root writeOk pid store fs =
        (.error ("Proposal " ++ pid ++ " not found"), store, fs) := by
      simp only [approve_proposal, hget]
    rw [hred]
    exact ⟨fun msg h => rfl, fun r h => by simp at h⟩
  | some proposal =>
    cases happly : applyChanges resolveFn root writeOk
        proposal.files [] fs with
    | error ep =>
      rcases ep with ⟨msg0, fsP⟩
      have hred : approve_proposal resolveFn root writeOk pid store fs =
          (.error msg0, store, fsP) := by
        simp only [approve_proposal, hget, happly]
      rw [hred]
      exact ⟨fun msg h => rfl, fun r h => by simp at h⟩
    | ok okp =>
      rcases okp with ⟨affected, fs1⟩
      have hred : approve_proposal resolveFn root writeOk pid store fs =
          (.ok ⟨pid, "approved", affected,
              "Applied " ++ toString affected.length ++ " file(s)"⟩,
           store.filter (fun kv => kv.1 ≠ pid), fs1) := by
        simp only [approve_proposal, hget, happly, Store.remove]
      rw [hred]
      exact ⟨fun msg h => by simp at h,
        fun r h => store_lookup_remove_self store pid⟩

/-- Witness for the amended C3: the failing side at the concrete
counterexample input, the succeeding side at an all-writes-succeed
oracle. -/
theorem c3_apply_failure_behavior_witness :
    ((approve_proposal (fun l => l) ["ws"]
        (fun t => t != ["ws", "b.txt"]) "p1" c3Store []).2.1 = c3Store) ∧
    (Store.get (approve_proposal (fun l => l) ["ws"] (fun _ => true)
        "p1" c3Store []).2.1 "p1" = none) :=
  ⟨(c3_apply_failure_behavior (fun l => l) ["ws"]
      (fun t => t != ["ws", "b.txt"]) "p1" c3Store []).1
      "Failed to apply changes: I/O error: b.txt" (by rfl),
   (c3_apply_failure_behavior (fun l => l) ["ws"] (fun _ => true)
      "p1" c3Store []).2
      ⟨"p1", "approved", ["a.txt", "b.txt"], "Applied 2 file(s)"⟩
      (by rfl)⟩

/-! ## Claim C4 — mutating tools only create proposals; delete_directory
does not -/

/-- One string occurs inside another. -/
def containsSubstring (s sub : String) : Prop :=
  ∃ pre suf, s.data = pre ++ sub.data ++ suf

/-- The middle of a three-part concatenation is a substring. -/
theorem containsSubstring_affix (a b c : String) :
    containsSubstring (a ++ b ++ c) b :=
  ⟨a.data, c.data, by simp [String.data_append]⟩

/-- After `rmtree`, looking up the deleted directory's path fails. -/
theorem fs_lookup_rmtree_self (fs : Fs) (t : List String) :
    List.lookup t (fs.filter (fun kv => ¬ t.isPrefixOf kv.1)) = none := by
  induction fs with
  | nil => rfl
  | cons kv fs ih =>
    rcases kv with ⟨a, b⟩
    cases hpre : t.isPrefixOf a with
    | true =>
      have hp : (decide ¬ (t.isPrefixOf
          ((a, b) : List String × FsEntry).1 = true)) = false := by
        simp [hpre]
      rw [List.filter_cons, hp, if_neg (by simp)]
      exact ih
    | false =>
      have hp : (decide ¬ (t.isPrefixOf
          ((a, b) : List String × FsEntry).1 = true)) = true := by
        simp [hpre]
      have hne : t ≠ a := by
        intro he
        subst he
        rw [List.isPrefixOf_iff_prefix.mpr (List.prefix_refl t)] at hpre
        cases hpre
      rw [List.filter_cons, hp, if_pos rfl, lookup_cons_ne b _ hne]
      exact ih

/-- The concrete disk of the C4 counterexample: one empty directory
inside the workspace. -/
def c4Fs : Fs := [(["ws", "d"], .dirEntry)]

/-- C4 counterexample: `delete_directory` deletes the directory directly
on disk — the returned disk state differs from the input — and no
proposal store is involved at all, contrary to the claim that every
disk-mutating tool only records a proposal. -/
theorem c4_counterexample :
    (delete_directory (fun l => l) ["ws"] c4Fs "d" false).1 =
      "Successfully deleted empty directory \x27d\x27" ∧
    (delete_directory (fun l => l) ["ws"] c4Fs "d" false).2 = [] ∧
    c4Fs ≠ [] := by
  refine ⟨by rfl, by rfl, by decide⟩

/-- C4 as amended: `write_file`, `edit_file` and `delete_file` never
touch the disk and, on success, record a proposal under the generated
identifier and answer with a confirmation containing that identifier;
`delete_directory` takes no proposal store at all and, on a recursive
delete, removes the directory from the disk directly. -/
theorem c4_tools_proposal_only (resolveFn : List String → List String)
    (root : List String) (gen_id : String) (now : Int) (fs : Fs)
    (store : Store) (path content old_str new_str dpath : String)
    (recursive : Bool) :
    ((write_file resolveFn root gen_id now fs store path content).2.2 =
      fs) ∧
    ((edit_file resolveFn root gen_id now fs store path old_str
        new_str).2.2 = fs) ∧
    ((delete_file resolveFn root gen_id now fs store path).2.2 = fs) ∧
    (∀ target, safe_path resolveFn root path = .ok target →
      fs.lookup target ≠ some (.fileEntry none) →
      (∃ p, p.proposal_id = gen_id ∧
        Store.get (write_file resolveFn root gen_id now fs store path
          content).2.1 gen_id = some p) ∧
      containsSubstring
        (write_file resolveFn root gen_id now fs store path content).1
        gen_id) ∧
    (∀ target content0, safe_path resolveFn root path = .ok target →
      fs.lookup target = some (.fileEntry (some content0)) →
      pyCount content0 old_str = 1 →
      (∃ p, p.proposal_id = gen_id ∧
        Store.get (edit_file resolveFn root gen_id now fs store path
          old_str new_str).2.1 gen_id = some p) ∧
      containsSubstring
        (edit_file resolveFn root gen_id now fs store path old_str
          new_str).1 gen_id) ∧
    (∀ target c, safe_path resolveFn root path = .ok target →
      fs.lookup target = some (.fileEntry c) →
      (∃ p, p.proposal_id = gen_id ∧
        Store.get (delete_file resolveFn root gen_id now fs store
          path).2.1 gen_id = some p) ∧
      containsSubstring
        (delete_file resolveFn root gen_id now fs store path).1
        gen_id) ∧
    (∀ target, safe_path resolveFn root dpath = .ok target →
      fs.lookup target = some .dirEntry → target ≠ root →
      recursive = true →
      List.lookup target
        (delete_directory resolveFn root fs dpath recursive).2 =
        none) := by
  refine ⟨?_, ?_, ?_, ?_, ?_, ?_, ?_⟩
  · cases hsp : safe_path resolveFn root path with
    | error e => simp [write_file, hsp]
    | ok target =>
      cases hlk : fs.lookup target with
      | none => simp [write_file, hsp, hlk]
      | some entry =>
        cases entry with
        | dirEntry => simp [write_file, hsp, hlk]
        | fileEntry c =>
          cases c with
          | none => simp [write_file, hsp, hlk]
          | some t => simp [write_file, hsp, hlk]
  · cases hsp : safe_path resolveFn root path with
    | error e => simp [edit_file, hsp]
    | ok target =>
      cases hlk : fs.lookup target with
      | none => simp [edit_file, hsp, hlk]
      | some entry =>
        cases entry with
        | dirEntry => simp [edit_file, hsp, hlk]
        | fileEntry c =>
          cases c with
          | none => simp [edit_file, hsp, hlk]
          | some t =>
            by_cases h0 : pyCount t old_str = 0
            · simp [edit_file, hsp, hlk, h0]
            · by_cases h1 : pyCount t old_str > 1
              · simp [edit_file, hsp, hlk, h0, h1]
              · simp [edit_file, hsp, hlk, h0, h1]
  · cases hsp : safe_path resolveFn root path with
    | error e => simp [delete_file, hsp]
    | ok target =>
      cases hlk : fs.lookup target with
      | none => simp [delete_file, hsp, hlk]
      | some entry =>
        cases entry with
        | dirEntry => simp [delete_file, hsp, hlk]
        | fileEntry c => simp [delete_file, hsp, hlk]
  · intro target hsp hnb
    cases hlk : fs.lookup target with
    | none =>
      simp only [write_file, hsp, hlk, create_proposal]
      exact ⟨⟨_, rfl, lookup_dictInsert_self store gen_id _⟩,
        containsSubstring_affix _ gen_id _⟩
    | some entry =>
      cases entry with
      | dirEntry =>
        simp only [write_file, hsp, hlk, create_proposal]
        exact ⟨⟨_, rfl, lookup_dictInsert_self store gen_id _⟩,
          containsSubstring_affix _ gen_id _⟩
      | fileEntry c =>
        cases c with
        | none => exact absurd hlk hnb
        | some t =>
          simp only [write_file, hsp, hlk, create_proposal]
          exact ⟨⟨_, rfl, lookup_dictInsert_self store gen_id _⟩,
            containsSubstring_affix _ gen_id _⟩
  · intro target content0 hsp hlk hcount
    simp only [edit_file, hsp, hlk, create_proposal, hcount]
    norm_num
    exact ⟨⟨_, rfl, lookup_dictInsert_self store gen_id _⟩,
      containsSubstring_affix _ gen_id _⟩
  · intro target c hsp hlk
    cases c with
    | none =>
      simp only [delete_file, hsp, hlk, create_proposal]
      exact ⟨⟨_, rfl, lookup_dictInsert_self store gen_id _⟩,
        containsSubstring_affix _ gen_id _⟩
    | some t =>
      simp only [delete_file, hsp, hlk, create_proposal]
      exact ⟨⟨_, rfl, lookup_dictInsert_self store gen_id _⟩,
        containsSubstring_affix _ gen_id _⟩
  · intro target hsp hlk hne hrec
    subst hrec
    simp only [delete_directory, hsp, hlk, if_neg hne, if_pos rfl]
    exact fs_lookup_rmtree_self fs target

/-- Witness for the amended C4: creating a file proposal on an empty
disk, and a concrete recursive directory delete. -/
theorem c4_tools_proposal_only_witness :
    ((∃ p, p.proposal_id = "id1" ∧
        Store.get (write_file (fun l => l) ["ws"] "id1" 5 [] []
          "n.md" "hi").2.1 "id1" = some p) ∧
      containsSubstring
        (write_file (fun l => l) ["ws"] "id1" 5 [] [] "n.md" "hi").1
        "id1") ∧
    List.lookup ["ws", "d"]
      (delete_directory (fun l => l) ["ws"]
        [(["ws", "d"], .dirEntry), (["ws", "d", "x"],
          .fileEntry (some "t"))] "d" true).2 = none :=
  ⟨(c4_tools_proposal_only (fun l => l) ["ws"] "id1" 5 [] []
      "n.md" "hi" "" "" "d" true).2.2.2.1 ["ws", "n.md"] (by rfl)
      (by decide),
   (c4_tools_proposal_only (fun l => l) ["ws"] "id1" 5
      [(["ws", "d"], .dirEntry), (["ws", "d", "x"],
        .fileEntry (some "t"))] [] "n.md" "hi" "" "" "d"
      true).2.2.2.2.2.2 ["ws", "d"] (by rfl) (by rfl) (by decide) rfl⟩
